import Mathlib

/-
Shallow embedding of the todolist backend (src/main.py): a FastAPI + SQLModel
CRUD service over two tables, `border(id)` and `task(id, text, owner_id)`.
The store is modelled as an explicit state (rows in insertion order plus the
primary-key counters the store uses to assign fresh surrogate ids); each route
handler becomes a pure function from state and request data to a response and
a new state.
-/

namespace TodoBackend

/-- A persisted task row: `Task` in src/main.py (id, optional text, owner_id
foreign key to a border). -/
structure Task where
  id : Nat
  text : Option String
  owner_id : Nat
deriving Repr, DecidableEq

/-- The request body of POST /borders/: `BorderCreate` in src/main.py. It
carries a `tasks` field, which the handler ignores entirely. -/
structure BorderCreate where
  tasks : List Task
deriving Repr, DecidableEq

/-- The request body of POST /borders/\x7bborder_id\x7d/tasks/: `TaskCreate`
in src/main.py is an empty model, so the body carries no usable content. -/
structure TaskCreate
deriving Repr, DecidableEq

/-- The request body of PATCH: `TaskUpdate` in src/main.py. The outer Option
distinguishes a field absent from the request (`none`, excluded by
`exclude_unset`) from an explicitly supplied value (`some v`), where `v` may
itself be `none` (an explicit JSON null). -/
structure TaskUpdate where
  text : Option (Option String)
deriving Repr, DecidableEq

/-- HTTP responses the handlers can produce, at the granularity the claims
need: serialized bodies for 200 responses, a 404 with its detail string, and
the framework-level 422 validation rejection. -/
inductive Resp where
  | borderPublic (id : Nat) (tasks : List Task)
  | taskList (tasks : List Task)
  | taskResp (t : Task)
  | borderList (rows : List (Nat × List Task))
  | okTrue
  | notFound (detail : String)
  | unprocessable
deriving Repr, DecidableEq

/-- The relational store: the `border` table holds only ids, the `task` table
holds task rows; both lists are in insertion order. `nextBorderId` and
`nextTaskId` model the store's surrogate primary-key generator: each insert
receives the counter's value and increments it, so ids are fresh and never
reused within a running store instance (the spec's stated store behaviour). -/
structure StoreState where
  borders : List Nat
  tasks : List Task
  nextBorderId : Nat
  nextTaskId : Nat
deriving Repr, DecidableEq

/-- The empty store created at startup by `create_db_and_tables`; SQLite
assigns primary keys starting from 1. -/
def initState : StoreState := ⟨[], [], 1, 1⟩

/-- The `border.tasks` relationship: all task rows whose `owner_id` is the
border's id, in insertion (= primary key) order. -/
def tasksOf (s : StoreState) (b : Nat) : List Task :=
  s.tasks.filter (fun t => t.owner_id == b)

/-- Primary-key lookup `session.get(Task, task_id)`. -/
def getTask (s : StoreState) (task_id : Nat) : Option Task :=
  s.tasks.find? (fun t => t.id == task_id)

/-- Handler `create_border` (src/main.py:72-78): ignores the request body,
inserts a fresh `Border(tasks=[])`, and returns it serialized as
`BorderPublic` (id plus its task relationship). -/
def create_border (s : StoreState) (border : BorderCreate) : Resp × StoreState :=
  let newId := s.nextBorderId
  let s2 : StoreState :=
    { s with borders := s.borders ++ [newId], nextBorderId := newId + 1 }
  (.borderPublic newId (tasksOf s2 newId), s2)

/-- Handler `add_task_to_border` (src/main.py:82-91): 404 if the border is
missing; otherwise inserts `Task(owner_id=border.id)` (text defaults to
null) and returns the border's refreshed task list. -/
def add_task_to_border (s : StoreState) (border_id : Nat) (task : TaskCreate) :
    Resp × StoreState :=
  if border_id ∈ s.borders then
    let db_task : Task := { id := s.nextTaskId, text := none, owner_id := border_id }
    let s2 : StoreState :=
      { s with tasks := s.tasks ++ [db_task], nextTaskId := s.nextTaskId + 1 }
    (.taskList (tasksOf s2 border_id), s2)
  else
    (.notFound "Border not found", s)

/-- SQL `SELECT ... OFFSET offset LIMIT limit` on SQLite: a negative offset
behaves like 0, a negative limit means no limit. -/
def sqlPage (rows : List Nat) (offset limit : Int) : List Nat :=
  let dropped := rows.drop offset.toNat
  if limit < 0 then dropped else dropped.take limit.toNat

/-- Handler `read_borders` (src/main.py:94-100): pages the border table in
store order and serializes each border with its task relationship. -/
def read_borders (s : StoreState) (offset limit : Int) : Resp × StoreState :=
  (.borderList ((sqlPage s.borders offset limit).map (fun b => (b, tasksOf s b))), s)

/-- The framework validation layer in front of `read_borders`: the only
declared constraint is `Query(le=100)` on `limit` (src/main.py:97); `offset`
is a plain int with no bound. A violation is rejected with 422 before the
handler runs. -/
def read_borders_endpoint (s : StoreState) (offset limit : Int) : Resp × StoreState :=
  if limit ≤ 100 then read_borders s offset limit
  else (.unprocessable, s)

/-- Handler `read_border` (src/main.py:104-108): GET one border or 404. -/
def read_border (s : StoreState) (border_id : Nat) : Resp × StoreState :=
  if border_id ∈ s.borders then
    (.borderPublic border_id (tasksOf s border_id), s)
  else
    (.notFound "Border not found", s)

/-- The `exclude_unset` partial update (src/main.py:120-121): only the fields
explicitly present in the request body are applied to the row. -/
def applyUpdate (upd : TaskUpdate) (t : Task) : Task :=
  match upd.text with
  | none => t
  | some v => { t with text := v }

/-- Handler `update_task` (src/main.py:111-126): 404 if the border is
missing, 404 if the task is missing or owned by a different border;
otherwise applies the partial update to the task row and returns the
refreshed task. -/
def update_task (s : StoreState) (border_id task_id : Nat) (task_update : TaskUpdate) :
    Resp × StoreState :=
  if border_id ∈ s.borders then
    match getTask s task_id with
    | none => (.notFound "Task not found", s)
    | some t =>
      if t.owner_id = border_id then
        let s2 : StoreState :=
          { s with tasks :=
              s.tasks.map (fun u => if u.id == task_id then applyUpdate task_update u else u) }
        (.taskResp (applyUpdate task_update t), s2)
      else
        (.notFound "Task not found", s)
  else
    (.notFound "Border not found", s)

/-- Handler `delete_border` (src/main.py:129-139): 404 if missing; otherwise
deletes every task of the border, then the border row, and answers ok. -/
def delete_border (s : StoreState) (border_id : Nat) : Resp × StoreState :=
  if border_id ∈ s.borders then
    let s2 : StoreState :=
      { s with
        tasks := s.tasks.filter (fun t => t.owner_id != border_id),
        borders := s.borders.filter (fun b => b != border_id) }
    (.okTrue, s2)
  else
    (.notFound "Border not found", s)

/-- Handler `delete_task` (src/main.py:142-153): 404 if the border is
missing, 404 if the task is missing or owned by a different border;
otherwise deletes the task row and answers ok. -/
def delete_task (s : StoreState) (border_id task_id : Nat) : Resp × StoreState :=
  if border_id ∈ s.borders then
    match getTask s task_id with
    | none => (.notFound "Task not found", s)
    | some t =>
      if t.owner_id = border_id then
        (.okTrue, { s with tasks := s.tasks.filter (fun u => u.id != task_id) })
      else
        (.notFound "Task not found", s)
  else
    (.notFound "Border not found", s)

/-- One API request, as dispatched to the handlers above. -/
inductive Op where
  | createBorder (body : BorderCreate)
  | addTask (border_id : Nat) (body : TaskCreate)
  | listBorders (offset limit : Int)
  | getBorder (border_id : Nat)
  | updateTask (border_id task_id : Nat) (upd : TaskUpdate)
  | deleteBorder (border_id : Nat)
  | deleteTask (border_id task_id : Nat)
deriving Repr

/-- Route dispatch: run one request against the store. -/
def step (s : StoreState) : Op → Resp × StoreState
  | .createBorder body => create_border s body
  | .addTask b body => add_task_to_border s b body
  | .listBorders off lim => read_borders_endpoint s off lim
  | .getBorder b => read_border s b
  | .updateTask b t upd => update_task s b t upd
  | .deleteBorder b => delete_border s b
  | .deleteTask b t => delete_task s b t

/-- A store state reachable from startup by some sequence of API requests. -/
inductive Reachable : StoreState → Prop
  | base : Reachable initState
  | next (op : Op) {s : StoreState} : Reachable s → Reachable (step s op).2

/-- Structural invariant maintained by every handler: primary keys are below
the corresponding counter, rows are in strictly increasing key order (hence
keys are unique), and every task's foreign key references an existing
border. -/
structure Inv (s : StoreState) : Prop where
  borders_lt : ∀ b ∈ s.borders, b < s.nextBorderId
  borders_sorted : s.borders.Pairwise (· < ·)
  tasks_lt : ∀ t ∈ s.tasks, t.id < s.nextTaskId
  tasks_sorted : s.tasks.Pairwise (fun a b => a.id < b.id)
  owners_exist : ∀ t ∈ s.tasks, t.owner_id ∈ s.borders

theorem applyUpdate_id (upd : TaskUpdate) (t : Task) : (applyUpdate upd t).id = t.id := by
  unfold applyUpdate; cases upd.text <;> rfl

theorem applyUpdate_owner_id (upd : TaskUpdate) (t : Task) :
    (applyUpdate upd t).owner_id = t.owner_id := by
  unfold applyUpdate; cases upd.text <;> rfl

theorem inv_init : Inv initState := by
  constructor <;> simp [initState]

theorem inv_create_border (s : StoreState) (body : BorderCreate) (h : Inv s) :
    Inv (create_border s body).2 := by
  constructor
  · intro b hb
    simp [create_border] at hb ⊢
    rcases hb with hb | rfl
    · exact Nat.lt_succ_of_lt (h.borders_lt b hb)
    · exact Nat.lt_succ_self _
  · simp only [create_border, List.pairwise_append]
    refine ⟨h.borders_sorted, List.pairwise_singleton _ _, ?_⟩
    intro a ha b hb
    simp at hb
    subst hb
    exact h.borders_lt a ha
  · intro t ht
    simpa [create_border] using h.tasks_lt t ht
  · exact h.tasks_sorted
  · intro t ht
    simp [create_border] at ht ⊢
    exact Or.inl (h.owners_exist t ht)

theorem inv_add_task (s : StoreState) (border_id : Nat) (body : TaskCreate) (h : Inv s) :
    Inv (add_task_to_border s border_id body).2 := by
  unfold add_task_to_border
  split
  · constructor
    · intro b hb
      exact h.borders_lt b hb
    · exact h.borders_sorted
    · intro t ht
      simp at ht
      rcases ht with ht | rfl
      · exact Nat.lt_succ_of_lt (h.tasks_lt t ht)
      · exact Nat.lt_succ_self _
    · simp only [List.pairwise_append]
      refine ⟨h.tasks_sorted, List.pairwise_singleton _ _, ?_⟩
      intro a ha b hb
      simp at hb
      subst hb
      exact h.tasks_lt a ha
    · intro t ht
      simp at ht
      rcases ht with ht | rfl
      · exact h.owners_exist t ht
      · assumption
  · exact h

theorem inv_update_task (s : StoreState) (border_id task_id : Nat) (upd : TaskUpdate)
    (h : Inv s) : Inv (update_task s border_id task_id upd).2 := by
  unfold update_task
  split
  · split
    · exact h
    · split
      · constructor
        · exact h.borders_lt
        · exact h.borders_sorted
        · intro u hu
          simp only [List.mem_map] at hu
          obtain ⟨v, hv, rfl⟩ := hu
          have : (if v.id == task_id then applyUpdate upd v else v).id = v.id := by
            split <;> simp [applyUpdate_id]
          rw [this]
          exact h.tasks_lt v hv
        · rw [List.pairwise_map]
          refine h.tasks_sorted.imp_of_mem ?_
          intro a b _ _ hab
          have ha : (if a.id == task_id then applyUpdate upd a else a).id = a.id := by
            split <;> simp [applyUpdate_id]
          have hb : (if b.id == task_id then applyUpdate upd b else b).id = b.id := by
            split <;> simp [applyUpdate_id]
          rw [ha, hb]; exact hab
        · intro u hu
          simp only [List.mem_map] at hu
          obtain ⟨v, hv, rfl⟩ := hu
          have : (if v.id == task_id then applyUpdate upd v else v).owner_id = v.owner_id := by
            split <;> simp [applyUpdate_owner_id]
          rw [this]
          exact h.owners_exist v hv
      · exact h
  · exact h


theorem inv_delete_border (s : StoreState) (border_id : Nat) (h : Inv s) :
    Inv (delete_border s border_id).2 := by
  unfold delete_border
  split
  · constructor
    · intro b hb
      exact h.borders_lt b (List.mem_of_mem_filter hb)
    · exact h.borders_sorted.sublist (List.filter_sublist _)
    · intro t ht
      exact h.tasks_lt t (List.mem_of_mem_filter ht)
    · exact h.tasks_sorted.sublist (List.filter_sublist _)
    · intro t ht
      rw [List.mem_filter] at ht ⊢
      exact ⟨h.owners_exist t ht.1, by simpa using ht.2⟩
  · exact h

theorem inv_delete_task (s : StoreState) (border_id task_id : Nat) (h : Inv s) :
    Inv (delete_task s border_id task_id).2 := by
  unfold delete_task
  split
  · split
    · exact h
    · split
      · constructor
        · exact h.borders_lt
        · exact h.borders_sorted
        · intro u hu
          exact h.tasks_lt u (List.mem_of_mem_filter hu)
        · exact h.tasks_sorted.sublist (List.filter_sublist _)
        · intro u hu
          exact h.owners_exist u (List.mem_of_mem_filter hu)
      · exact h
  · exact h

theorem inv_step (s : StoreState) (op : Op) (h : Inv s) : Inv (step s op).2 := by
  cases op with
  | createBorder body => exact inv_create_border s body h
  | addTask b body => exact inv_add_task s b body h
  | listBorders off lim =>
    simp only [step, read_borders_endpoint, read_borders]
    split <;> exact h
  | getBorder b =>
    simp only [step, read_border]
    split <;> exact h
  | updateTask b t upd => exact inv_update_task s b t upd h
  | deleteBorder b => exact inv_delete_border s b h
  | deleteTask b t => exact inv_delete_task s b t h

theorem reachable_inv {s : StoreState} (h : Reachable s) : Inv s := by
  induction h with
  | base => exact inv_init
  | next op _ ih => exact inv_step _ op ih

/-- C6: at every state reachable by any sequence of API operations, every
task's owner_id references a border that exists in the store. -/
theorem claim6_owner_always_exists {s : StoreState} (h : Reachable s) :
    ∀ t ∈ s.tasks, t.owner_id ∈ s.borders :=
  (reachable_inv h).owners_exist

theorem claim6_owner_always_exists_witness :
    (⟨1, none, 1⟩ : Task).owner_id ∈
      (step (step initState (.createBorder ⟨[]⟩)).2 (.addTask 1 ⟨⟩)).2.borders :=
  claim6_owner_always_exists
    (Reachable.next _ (Reachable.next _ Reachable.base)) _ (by decide)

/-- C5: POST /borders/ ignores the submitted body entirely (even a body that
carries task data): the created border has a fresh id and an empty task
list, the response is that id with tasks = [], and no task row is
persisted. -/
theorem claim5_create_border_ignores_body {s : StoreState} (h : Reachable s)
    (body : BorderCreate) :
    (create_border s body).1 = .borderPublic s.nextBorderId [] ∧
    (create_border s body).2.tasks = s.tasks ∧
    (create_border s body).2.borders = s.borders ++ [s.nextBorderId] := by
  have hinv := reachable_inv h
  refine ⟨?_, rfl, rfl⟩
  simp only [create_border, tasksOf]
  have : s.tasks.filter (fun t => t.owner_id == s.nextBorderId) = [] := by
    rw [List.filter_eq_nil]
    intro t ht
    have h1 := hinv.owners_exist t ht
    have h2 := hinv.borders_lt _ h1
    simp only [beq_iff_eq]
    omega
  rw [this]

theorem claim5_create_border_ignores_body_witness :
    (create_border initState ⟨[⟨5, some "hi", 3⟩]⟩).1 = .borderPublic 1 [] ∧
    (create_border initState ⟨[⟨5, some "hi", 3⟩]⟩).2.tasks = initState.tasks ∧
    (create_border initState ⟨[⟨5, some "hi", 3⟩]⟩).2.borders = initState.borders ++ [1] :=
  claim5_create_border_ignores_body Reachable.base ⟨[⟨5, some "hi", 3⟩]⟩

/-- C3: for an existing border B, POST /borders/B/tasks/ (whose body carries
no usable content) appends exactly one task with owner_id = B and text
unset, and returns the border's full updated task list; for a missing B it
returns 404 "Border not found" and leaves the store unchanged. -/
theorem claim3_add_task_fresh_empty_text (s : StoreState) (B : Nat) (body : TaskCreate) :
    (B ∈ s.borders →
      (add_task_to_border s B body).2.tasks = s.tasks ++ [⟨s.nextTaskId, none, B⟩] ∧
      (add_task_to_border s B body).2.borders = s.borders ∧
      (add_task_to_border s B body).1 =
        .taskList (tasksOf s B ++ [⟨s.nextTaskId, none, B⟩])) ∧
    (B ∉ s.borders →
      add_task_to_border s B body = (.notFound "Border not found", s)) := by
  constructor
  · intro hB
    refine ⟨?_, ?_, ?_⟩
    · simp only [add_task_to_border, if_pos hB]
    · simp only [add_task_to_border, if_pos hB]
    · simp only [add_task_to_border, if_pos hB, tasksOf, List.filter_append]
      congr 1
      simp
  · intro hB
    simp only [add_task_to_border, if_neg hB]

theorem claim3_add_task_fresh_empty_text_witness :
    ((add_task_to_border ⟨[1], [], 2, 1⟩ 1 ⟨⟩).2.tasks = [] ++ [⟨1, none, 1⟩] ∧
      (add_task_to_border ⟨[1], [], 2, 1⟩ 1 ⟨⟩).2.borders = [1] ∧
      (add_task_to_border ⟨[1], [], 2, 1⟩ 1 ⟨⟩).1 =
        .taskList (tasksOf ⟨[1], [], 2, 1⟩ 1 ++ [⟨1, none, 1⟩])) ∧
    add_task_to_border ⟨[1], [], 2, 1⟩ 9 ⟨⟩ = (.notFound "Border not found", ⟨[1], [], 2, 1⟩) :=
  ⟨(claim3_add_task_fresh_empty_text ⟨[1], [], 2, 1⟩ 1 ⟨⟩).1 (by decide),
   (claim3_add_task_fresh_empty_text ⟨[1], [], 2, 1⟩ 9 ⟨⟩).2 (by decide)⟩

/-- C1: DELETE /borders/B for an existing border deletes every task owned by
B and then the border itself, answers ok, and afterwards a GET on the border
and every task-scoped lookup under it answer 404; for a missing B it answers
404 and deletes nothing. -/
theorem claim1_delete_border_cascades (s : StoreState) (B : Nat) :
    (B ∈ s.borders →
      (delete_border s B).1 = .okTrue ∧
      (∀ t ∈ s.tasks, t.owner_id = B → t ∉ (delete_border s B).2.tasks) ∧
      (∀ t ∈ s.tasks, t.owner_id ≠ B → t ∈ (delete_border s B).2.tasks) ∧
      (∀ t ∈ (delete_border s B).2.tasks, t ∈ s.tasks) ∧
      B ∉ (delete_border s B).2.borders ∧
      (∀ b ∈ s.borders, b ≠ B → b ∈ (delete_border s B).2.borders) ∧
      (∀ b ∈ (delete_border s B).2.borders, b ∈ s.borders) ∧
      (read_border (delete_border s B).2 B).1 = .notFound "Border not found" ∧
      (∀ T upd, (update_task (delete_border s B).2 B T upd).1 = .notFound "Border not found") ∧
      (∀ T, (delete_task (delete_border s B).2 B T).1 = .notFound "Border not found")) ∧
    (B ∉ s.borders → delete_border s B = (.notFound "Border not found", s)) := by
  constructor
  · intro hB
    have hBnot : B ∉ (delete_border s B).2.borders := by
      simp only [delete_border, if_pos hB]
      intro hmem
      rcases List.mem_filter.mp hmem with ⟨_, hne⟩
      simp at hne
    refine ⟨?_, ?_, ?_, ?_, hBnot, ?_, ?_, ?_, ?_, ?_⟩
    · simp only [delete_border, if_pos hB]
    · intro t _ hown hmem
      simp only [delete_border, if_pos hB] at hmem
      rcases List.mem_filter.mp hmem with ⟨_, hne⟩
      simp [hown] at hne
    · intro t ht hown
      simp only [delete_border, if_pos hB]
      exact List.mem_filter.mpr ⟨ht, by simpa using hown⟩
    · intro t ht
      simp only [delete_border, if_pos hB] at ht
      exact List.mem_of_mem_filter ht
    · intro b hb hne
      simp only [delete_border, if_pos hB]
      exact List.mem_filter.mpr ⟨hb, by simpa using hne⟩
    · intro b hb
      simp only [delete_border, if_pos hB] at hb
      exact List.mem_of_mem_filter hb
    · simp only [read_border, if_neg hBnot]
    · intro T upd
      simp only [update_task, if_neg hBnot]
    · intro T
      simp only [delete_task, if_neg hBnot]
  · intro hB
    simp only [delete_border, if_neg hB]

theorem claim1_delete_border_cascades_witness :
    ((delete_border ⟨[1, 2], [⟨1, none, 1⟩, ⟨2, none, 2⟩], 3, 3⟩ 1).1 = .okTrue ∧
      (delete_border ⟨[1, 2], [⟨1, none, 1⟩, ⟨2, none, 2⟩], 3, 3⟩ 1).2.tasks = [⟨2, none, 2⟩] ∧
      (delete_border ⟨[1, 2], [⟨1, none, 1⟩, ⟨2, none, 2⟩], 3, 3⟩ 1).2.borders = [2] ∧
      (read_border (delete_border ⟨[1, 2], [⟨1, none, 1⟩, ⟨2, none, 2⟩], 3, 3⟩ 1).2 1).1 =
        .notFound "Border not found") ∧
    delete_border ⟨[1, 2], [⟨1, none, 1⟩, ⟨2, none, 2⟩], 3, 3⟩ 7 =
      (.notFound "Border not found", ⟨[1, 2], [⟨1, none, 1⟩, ⟨2, none, 2⟩], 3, 3⟩) := by
  have h1 := (claim1_delete_border_cascades ⟨[1, 2], [⟨1, none, 1⟩, ⟨2, none, 2⟩], 3, 3⟩ 1).1
    (by decide)
  have h2 := (claim1_delete_border_cascades ⟨[1, 2], [⟨1, none, 1⟩, ⟨2, none, 2⟩], 3, 3⟩ 7).2
    (by decide)
  exact ⟨⟨h1.1, by decide, by decide, h1.2.2.2.2.2.2.2.1⟩, h2⟩

/-- C4: when border B exists but task T is missing or owned by a different
border, both PATCH and DELETE on /borders/B/tasks/T answer 404 "Task not
found" and leave the store unchanged — an ownership mismatch behaves
exactly like a nonexistent task id. -/
theorem claim4_mismatch_is_not_found {s : StoreState} (B T : Nat)
    (hB : B ∈ s.borders)
    (hmiss : getTask s T = none ∨ ∃ t0, getTask s T = some t0 ∧ t0.owner_id ≠ B) :
    (∀ upd, update_task s B T upd = (.notFound "Task not found", s)) ∧
    delete_task s B T = (.notFound "Task not found", s) := by
  rcases hmiss with hnone | ⟨t0, hsome, hne⟩
  · constructor
    · intro upd
      simp only [update_task, if_pos hB, hnone]
    · simp only [delete_task, if_pos hB, hnone]
  · constructor
    · intro upd
      simp only [update_task, if_pos hB, hsome, if_neg hne]
    · simp only [delete_task, if_pos hB, hsome, if_neg hne]

theorem claim4_mismatch_is_not_found_witness :
    ((∀ upd, update_task ⟨[1, 2], [⟨1, none, 1⟩], 3, 2⟩ 2 1 upd =
        (.notFound "Task not found", ⟨[1, 2], [⟨1, none, 1⟩], 3, 2⟩)) ∧
      delete_task ⟨[1, 2], [⟨1, none, 1⟩], 3, 2⟩ 2 1 =
        (.notFound "Task not found", ⟨[1, 2], [⟨1, none, 1⟩], 3, 2⟩)) ∧
    ((∀ upd, update_task ⟨[1, 2], [⟨1, none, 1⟩], 3, 2⟩ 2 9 upd =
        (.notFound "Task not found", ⟨[1, 2], [⟨1, none, 1⟩], 3, 2⟩)) ∧
      delete_task ⟨[1, 2], [⟨1, none, 1⟩], 3, 2⟩ 2 9 =
        (.notFound "Task not found", ⟨[1, 2], [⟨1, none, 1⟩], 3, 2⟩)) :=
  ⟨claim4_mismatch_is_not_found 2 1 (by decide)
      (Or.inr ⟨⟨1, none, 1⟩, by decide, by decide⟩),
   claim4_mismatch_is_not_found 2 9 (by decide) (Or.inl (by decide))⟩

/-- C2: PATCH on an existing, correctly-owned task with text explicitly
supplied (value v, which may itself be an explicit null) stores v and
returns it, a subsequent read (direct lookup or GET on the owning border)
sees v, and a PATCH whose body omits text is a no-op returning the prior
row unchanged. -/
theorem claim2_partial_update_text {s : StoreState} (B T : Nat) (t0 : Task)
    (v : Option String) (hB : B ∈ s.borders) (hf : getTask s T = some t0)
    (hown : t0.owner_id = B) :
    (update_task s B T ⟨some v⟩).1 = .taskResp { t0 with text := v } ∧
    getTask (update_task s B T ⟨some v⟩).2 T = some { t0 with text := v } ∧
    (read_border (update_task s B T ⟨some v⟩).2 B).1 =
      .borderPublic B (tasksOf (update_task s B T ⟨some v⟩).2 B) ∧
    ({ t0 with text := v } : Task) ∈ tasksOf (update_task s B T ⟨some v⟩).2 B ∧
    update_task s B T ⟨none⟩ = (.taskResp t0, s) := by
  have hfL : s.tasks.find? (fun t => t.id == T) = some t0 := hf
  have ht0mem : t0 ∈ s.tasks := List.mem_of_find?_eq_some hfL
  have hT : (t0.id == T) = true := by
    have h1 := List.find?_some hfL
    simpa using h1
  have hfun : ∀ u : Task,
      (if u.id == T then applyUpdate ⟨some v⟩ u else u).id = u.id := by
    intro u; split <;> simp [applyUpdate_id]
  refine ⟨?_, ?_, ?_, ?_, ?_⟩
  · simp only [update_task, if_pos hB, hf, if_pos hown]
    rfl
  · simp only [update_task, if_pos hB, hf, hfL, if_pos hown, getTask]
    rw [List.find?_map]
    have hcomp : ((fun t : Task => t.id == T) ∘
        (fun u => if u.id == T then applyUpdate ⟨some v⟩ u else u)) =
        (fun t : Task => t.id == T) := by
      funext u
      simp only [Function.comp_apply, hfun u]
    rw [hcomp, hfL]
    have hTeq : t0.id = T := by simpa using hT
    simp [hTeq, applyUpdate]
  · simp only [update_task, if_pos hB, hf, if_pos hown, read_border, if_pos hB]
  · simp only [update_task, if_pos hB, hf, if_pos hown, tasksOf]
    have himg : ({ t0 with text := v } : Task) =
        (if t0.id == T then applyUpdate ⟨some v⟩ t0 else t0) := by
      rw [if_pos hT]; rfl
    refine List.mem_filter.mpr ⟨?_, ?_⟩
    · rw [himg]
      exact List.mem_map_of_mem _ ht0mem
    · simp [hown]
  · simp only [update_task, if_pos hB, hf, if_pos hown]
    have hg : s.tasks.map (fun u => if u.id == T then applyUpdate ⟨none⟩ u else u) =
        s.tasks := by
      have hid : ∀ u : Task, (if u.id == T then applyUpdate ⟨none⟩ u else u) = u := by
        intro u; split <;> rfl
      simp only [hid, List.map_id']
    rw [hg]
    rfl

theorem claim2_partial_update_text_witness :
    ((update_task ⟨[1], [⟨1, none, 1⟩], 2, 2⟩ 1 1 ⟨some (some "buy milk")⟩).1 =
        .taskResp ⟨1, some "buy milk", 1⟩ ∧
      getTask (update_task ⟨[1], [⟨1, none, 1⟩], 2, 2⟩ 1 1 ⟨some (some "buy milk")⟩).2 1 =
        some ⟨1, some "buy milk", 1⟩ ∧
      (read_border (update_task ⟨[1], [⟨1, none, 1⟩], 2, 2⟩ 1 1 ⟨some (some "buy milk")⟩).2 1).1 =
        .borderPublic 1
          (tasksOf (update_task ⟨[1], [⟨1, none, 1⟩], 2, 2⟩ 1 1 ⟨some (some "buy milk")⟩).2 1) ∧
      (⟨1, some "buy milk", 1⟩ : Task) ∈
        tasksOf (update_task ⟨[1], [⟨1, none, 1⟩], 2, 2⟩ 1 1 ⟨some (some "buy milk")⟩).2 1 ∧
      update_task ⟨[1], [⟨1, none, 1⟩], 2, 2⟩ 1 1 ⟨none⟩ =
        (.taskResp ⟨1, none, 1⟩, ⟨[1], [⟨1, none, 1⟩], 2, 2⟩)) :=
  claim2_partial_update_text 1 1 ⟨1, none, 1⟩ (some "buy milk")
    (by decide) (by decide) (by decide)

/-- C10: a successful PATCH on task T changes at most that task's text: the
response carries T's id and owner_id unchanged, the border table and both
id counters are untouched, the task table keeps its length, every row
other than T is exactly as before, and row T keeps its id and owner_id. -/
theorem claim10_update_frame {s : StoreState} (B T : Nat) (upd : TaskUpdate) (t0 : Task)
    (hB : B ∈ s.borders) (hf : getTask s T = some t0) (hown : t0.owner_id = B) :
    (update_task s B T upd).1 = .taskResp (applyUpdate upd t0) ∧
    (applyUpdate upd t0).id = t0.id ∧
    (applyUpdate upd t0).owner_id = t0.owner_id ∧
    (update_task s B T upd).2.borders = s.borders ∧
    (update_task s B T upd).2.nextBorderId = s.nextBorderId ∧
    (update_task s B T upd).2.nextTaskId = s.nextTaskId ∧
    (update_task s B T upd).2.tasks.length = s.tasks.length ∧
    (∀ (i : Nat) (hi : i < s.tasks.length) (hi2 : i < (update_task s B T upd).2.tasks.length),
      ((s.tasks.get ⟨i, hi⟩).id ≠ T →
        (update_task s B T upd).2.tasks.get ⟨i, hi2⟩ = s.tasks.get ⟨i, hi⟩) ∧
      ((update_task s B T upd).2.tasks.get ⟨i, hi2⟩).id = (s.tasks.get ⟨i, hi⟩).id ∧
      ((update_task s B T upd).2.tasks.get ⟨i, hi2⟩).owner_id =
        (s.tasks.get ⟨i, hi⟩).owner_id) := by
  have hred : update_task s B T upd =
      (.taskResp (applyUpdate upd t0),
        { s with tasks := s.tasks.map (fun u => if u.id == T then applyUpdate upd u else u) }) := by
    simp only [update_task, if_pos hB, hf, if_pos hown]
  rw [hred]
  refine ⟨rfl, applyUpdate_id upd t0, applyUpdate_owner_id upd t0, rfl, rfl, rfl, ?_, ?_⟩
  · simp
  · intro i hi hi2
    have hget : (s.tasks.map (fun u => if u.id == T then applyUpdate upd u else u)).get
        ⟨i, hi2⟩ = if (s.tasks.get ⟨i, hi⟩).id == T then applyUpdate upd (s.tasks.get ⟨i, hi⟩)
          else s.tasks.get ⟨i, hi⟩ := by
      simp [List.get_eq_getElem, List.getElem_map]
    rw [hget]
    refine ⟨?_, ?_, ?_⟩
    · intro hne
      rw [if_neg (by simpa using hne)]
    · split <;> simp [applyUpdate_id]
    · split <;> simp [applyUpdate_owner_id]

theorem claim10_update_frame_witness :
    ((update_task ⟨[1], [⟨1, none, 1⟩, ⟨2, some "a", 1⟩], 2, 3⟩ 1 1 ⟨some (some "b")⟩).1 =
        .taskResp (applyUpdate ⟨some (some "b")⟩ ⟨1, none, 1⟩) ∧
      (applyUpdate ⟨some (some "b")⟩ (⟨1, none, 1⟩ : Task)).id = (⟨1, none, 1⟩ : Task).id ∧
      (applyUpdate ⟨some (some "b")⟩ (⟨1, none, 1⟩ : Task)).owner_id =
        (⟨1, none, 1⟩ : Task).owner_id ∧
      (update_task ⟨[1], [⟨1, none, 1⟩, ⟨2, some "a", 1⟩], 2, 3⟩ 1 1
          ⟨some (some "b")⟩).2.borders = [1] ∧
      (update_task ⟨[1], [⟨1, none, 1⟩, ⟨2, some "a", 1⟩], 2, 3⟩ 1 1
          ⟨some (some "b")⟩).2.nextBorderId = 2 ∧
      (update_task ⟨[1], [⟨1, none, 1⟩, ⟨2, some "a", 1⟩], 2, 3⟩ 1 1
          ⟨some (some "b")⟩).2.nextTaskId = 3 ∧
      (update_task ⟨[1], [⟨1, none, 1⟩, ⟨2, some "a", 1⟩], 2, 3⟩ 1 1
          ⟨some (some "b")⟩).2.tasks.length =
        ([⟨1, none, 1⟩, ⟨2, some "a", 1⟩] : List Task).length ∧
      (∀ (i : Nat) (hi : i < ([⟨1, none, 1⟩, ⟨2, some "a", 1⟩] : List Task).length)
          (hi2 : i < (update_task ⟨[1], [⟨1, none, 1⟩, ⟨2, some "a", 1⟩], 2, 3⟩ 1 1
            ⟨some (some "b")⟩).2.tasks.length),
        ((([⟨1, none, 1⟩, ⟨2, some "a", 1⟩] : List Task).get ⟨i, hi⟩).id ≠ 1 →
          (update_task ⟨[1], [⟨1, none, 1⟩, ⟨2, some "a", 1⟩], 2, 3⟩ 1 1
            ⟨some (some "b")⟩).2.tasks.get ⟨i, hi2⟩ =
            ([⟨1, none, 1⟩, ⟨2, some "a", 1⟩] : List Task).get ⟨i, hi⟩) ∧
        ((update_task ⟨[1], [⟨1, none, 1⟩, ⟨2, some "a", 1⟩], 2, 3⟩ 1 1
            ⟨some (some "b")⟩).2.tasks.get ⟨i, hi2⟩).id =
          (([⟨1, none, 1⟩, ⟨2, some "a", 1⟩] : List Task).get ⟨i, hi⟩).id ∧
        ((update_task ⟨[1], [⟨1, none, 1⟩, ⟨2, some "a", 1⟩], 2, 3⟩ 1 1
            ⟨some (some "b")⟩).2.tasks.get ⟨i, hi2⟩).owner_id =
          (([⟨1, none, 1⟩, ⟨2, some "a", 1⟩] : List Task).get ⟨i, hi⟩).owner_id)) :=
  claim10_update_frame 1 1 ⟨some (some "b")⟩ ⟨1, none, 1⟩
    (by decide) (by decide) (by decide)

/-- One step of a run that also records every primary key the store assigns:
the state after the request, the border ids assigned so far, and the task
ids assigned so far (keys of deleted rows stay recorded). -/
def stepTrace (x : StoreState × List Nat × List Nat) (op : Op) :
    StoreState × List Nat × List Nat :=
  let s := x.1
  let s2 := (step s op).2
  match op with
  | .createBorder _ => (s2, x.2.1 ++ [s.nextBorderId], x.2.2)
  | .addTask b _ =>
    if b ∈ s.borders then (s2, x.2.1, x.2.2 ++ [s.nextTaskId]) else (s2, x.2.1, x.2.2)
  | _ => (s2, x.2.1, x.2.2)

/-- Run a request sequence from startup, recording all assigned ids. -/
def runTrace (ops : List Op) : StoreState × List Nat × List Nat :=
  ops.foldl stepTrace (initState, [], [])

/-- Invariant tying the recorded id traces to the store counters: each trace
is strictly increasing and entirely below the corresponding counter. -/
def TraceInv (x : StoreState × List Nat × List Nat) : Prop :=
  x.2.1.Pairwise (· < ·) ∧ (∀ i ∈ x.2.1, i < x.1.nextBorderId) ∧
  x.2.2.Pairwise (· < ·) ∧ (∀ i ∈ x.2.2, i < x.1.nextTaskId)

theorem step_nextBorderId_le (s : StoreState) (op : Op) :
    s.nextBorderId ≤ (step s op).2.nextBorderId := by
  cases op with
  | createBorder body => exact Nat.le_succ _
  | addTask b body =>
    simp only [step, add_task_to_border]
    split <;> exact Nat.le_refl _
  | listBorders off lim =>
    simp only [step, read_borders_endpoint, read_borders]
    split <;> exact Nat.le_refl _
  | getBorder b =>
    simp only [step, read_border]
    split <;> exact Nat.le_refl _
  | updateTask b t upd =>
    simp only [step, update_task]
    split
    · split
      · exact Nat.le_refl _
      · split <;> exact Nat.le_refl _
    · exact Nat.le_refl _
  | deleteBorder b =>
    simp only [step, delete_border]
    split <;> exact Nat.le_refl _
  | deleteTask b t =>
    simp only [step, delete_task]
    split
    · split
      · exact Nat.le_refl _
      · split <;> exact Nat.le_refl _
    · exact Nat.le_refl _

theorem step_nextTaskId_le (s : StoreState) (op : Op) :
    s.nextTaskId ≤ (step s op).2.nextTaskId := by
  cases op with
  | createBorder body => exact Nat.le_refl _
  | addTask b body =>
    simp only [step, add_task_to_border]
    split
    · exact Nat.le_succ _
    · exact Nat.le_refl _
  | listBorders off lim =>
    simp only [step, read_borders_endpoint, read_borders]
    split <;> exact Nat.le_refl _
  | getBorder b =>
    simp only [step, read_border]
    split <;> exact Nat.le_refl _
  | updateTask b t upd =>
    simp only [step, update_task]
    split
    · split
      · exact Nat.le_refl _
      · split <;> exact Nat.le_refl _
    · exact Nat.le_refl _
  | deleteBorder b =>
    simp only [step, delete_border]
    split <;> exact Nat.le_refl _
  | deleteTask b t =>
    simp only [step, delete_task]
    split
    · split
      · exact Nat.le_refl _
      · split <;> exact Nat.le_refl _
    · exact Nat.le_refl _

theorem traceInv_step (x : StoreState × List Nat × List Nat) (op : Op)
    (h : TraceInv x) : TraceInv (stepTrace x op) := by
  obtain ⟨hb, hblt, ht, htlt⟩ := h
  cases op with
  | createBorder body =>
    simp only [stepTrace]
    refine ⟨?_, ?_, ht, ?_⟩
    · rw [List.pairwise_append]
      refine ⟨hb, List.pairwise_singleton _ _, ?_⟩
      intro a ha b hbmem
      simp at hbmem
      subst hbmem
      exact hblt a ha
    · intro i hi
      simp only [stepTrace, step, create_border] at hi ⊢
      rcases List.mem_append.mp hi with hi | hi
      · exact Nat.lt_succ_of_lt (hblt i hi)
      · simp at hi
        subst hi
        exact Nat.lt_succ_self _
    · intro i hi
      exact htlt i hi
  | addTask b body =>
    simp only [stepTrace]
    split
    · next hmem =>
      refine ⟨hb, ?_, ?_, ?_⟩
      · intro i hi
        exact Nat.lt_of_lt_of_le (hblt i hi) (step_nextBorderId_le x.1 (.addTask b body))
      · rw [List.pairwise_append]
        refine ⟨ht, List.pairwise_singleton _ _, ?_⟩
        intro a ha c hc
        simp at hc
        subst hc
        exact htlt a ha
      · intro i hi
        have hnext : ((step x.1 (Op.addTask b body)).2).nextTaskId = x.1.nextTaskId + 1 := by
          simp only [step, add_task_to_border, if_pos hmem]
        rw [hnext]
        rcases List.mem_append.mp hi with hi | hi
        · exact Nat.lt_succ_of_lt (htlt i hi)
        · simp at hi
          subst hi
          exact Nat.lt_succ_self _
    · refine ⟨hb, ?_, ht, ?_⟩
      · intro i hi
        exact Nat.lt_of_lt_of_le (hblt i hi) (step_nextBorderId_le x.1 (.addTask b body))
      · intro i hi
        exact Nat.lt_of_lt_of_le (htlt i hi) (step_nextTaskId_le x.1 (.addTask b body))
  | listBorders off lim =>
    exact ⟨hb, fun i hi => Nat.lt_of_lt_of_le (hblt i hi) (step_nextBorderId_le x.1 _),
      ht, fun i hi => Nat.lt_of_lt_of_le (htlt i hi) (step_nextTaskId_le x.1 _)⟩
  | getBorder b =>
    exact ⟨hb, fun i hi => Nat.lt_of_lt_of_le (hblt i hi) (step_nextBorderId_le x.1 _),
      ht, fun i hi => Nat.lt_of_lt_of_le (htlt i hi) (step_nextTaskId_le x.1 _)⟩
  | updateTask b t upd =>
    exact ⟨hb, fun i hi => Nat.lt_of_lt_of_le (hblt i hi) (step_nextBorderId_le x.1 _),
      ht, fun i hi => Nat.lt_of_lt_of_le (htlt i hi) (step_nextTaskId_le x.1 _)⟩
  | deleteBorder b =>
    exact ⟨hb, fun i hi => Nat.lt_of_lt_of_le (hblt i hi) (step_nextBorderId_le x.1 _),
      ht, fun i hi => Nat.lt_of_lt_of_le (htlt i hi) (step_nextTaskId_le x.1 _)⟩
  | deleteTask b t =>
    exact ⟨hb, fun i hi => Nat.lt_of_lt_of_le (hblt i hi) (step_nextBorderId_le x.1 _),
      ht, fun i hi => Nat.lt_of_lt_of_le (htlt i hi) (step_nextTaskId_le x.1 _)⟩

theorem traceInv_foldl (ops : List Op) :
    ∀ x, TraceInv x → TraceInv (ops.foldl stepTrace x) := by
  induction ops with
  | nil => intro x h; exact h
  | cons op ops ih =>
    intro x h
    exact ih _ (traceInv_step x op h)

theorem traceInv_run (ops : List Op) : TraceInv (runTrace ops) := by
  apply traceInv_foldl
  refine ⟨List.Pairwise.nil, ?_, List.Pairwise.nil, ?_⟩ <;> intro i hi <;> simp at hi

/-- C7: within one running store instance, primary keys are never reused:
over any request sequence, the list of border ids the store assigns has no
duplicate, and neither does the list of task ids — a fresh id always
differs from every id assigned earlier, even ids of rows since deleted. -/
theorem claim7_ids_never_reused (ops : List Op) :
    (runTrace ops).2.1.Nodup ∧ (runTrace ops).2.2.Nodup := by
  obtain ⟨hb, _, ht, _⟩ := traceInv_run ops
  exact ⟨hb.imp Nat.ne_of_lt, ht.imp Nat.ne_of_lt⟩

/-- Insertion into a list kept in ascending order, used to state "the full
border list sorted by id". -/
def insertAsc (x : Nat) : List Nat → List Nat
  | [] => [x]
  | y :: ys => if x ≤ y then x :: y :: ys else y :: insertAsc x ys

/-- Sort a list of ids ascending by insertion sort. -/
def sortById (l : List Nat) : List Nat := l.foldr insertAsc []

theorem insertAsc_of_lt_head (x : Nat) :
    ∀ l : List Nat, (∀ y ∈ l, x < y) → insertAsc x l = x :: l := by
  intro l hlt
  cases l with
  | nil => rfl
  | cons y ys =>
    have : x ≤ y := Nat.le_of_lt (hlt y (List.mem_cons_self y ys))
    simp only [insertAsc, if_pos this]

theorem sortById_of_sorted :
    ∀ l : List Nat, l.Pairwise (· < ·) → sortById l = l := by
  intro l
  induction l with
  | nil => intro _; rfl
  | cons a l ih =>
    intro h
    have hl : l.Pairwise (· < ·) := h.of_cons
    have ha : ∀ y ∈ l, a < y := fun y hy => List.rel_of_pairwise_cons h hy
    show insertAsc a (sortById l) = a :: l
    rw [ih hl]
    exact insertAsc_of_lt_head a l ha

/-- C8: for a reachable store and valid paging parameters (offset ≥ 0,
0 ≤ limit ≤ 100), GET /borders/ leaves the store unchanged and returns the
full border list sorted by id ascending, with the first `offset` entries
skipped and at most `limit` entries kept, each border carrying its nested
task list. -/
theorem claim8_list_borders_page {s : StoreState} (h : Reachable s)
    (offset limit : Int) (hoff : 0 ≤ offset) (hlim0 : 0 ≤ limit) (hlim : limit ≤ 100) :
    step s (.listBorders offset limit) =
      (.borderList ((((sortById s.borders).drop offset.toNat).take limit.toNat).map
        (fun b => (b, tasksOf s b))), s) := by
  have hsorted := (reachable_inv h).borders_sorted
  rw [sortById_of_sorted s.borders hsorted]
  simp only [step, read_borders_endpoint, if_pos hlim, read_borders, sqlPage]
  rw [if_neg (by omega)]

theorem claim8_list_borders_page_witness :
    step (step (step initState (.createBorder ⟨[]⟩)).2 (.createBorder ⟨[]⟩)).2
        (.listBorders 0 100) =
      (.borderList ((((sortById
          (step (step initState (.createBorder ⟨[]⟩)).2 (.createBorder ⟨[]⟩)).2.borders).drop
            (0 : Int).toNat).take (100 : Int).toNat).map
        (fun b => (b, tasksOf (step (step initState (.createBorder ⟨[]⟩)).2
          (.createBorder ⟨[]⟩)).2 b))),
        (step (step initState (.createBorder ⟨[]⟩)).2 (.createBorder ⟨[]⟩)).2) :=
  claim8_list_borders_page (Reachable.next _ (Reachable.next _ Reachable.base))
    0 100 (by decide) (by decide) (by decide)

/-- C9 (counterexample to the claim as stated): the validation layer does
not reject an out-of-range offset — a request with offset = -1 (violating
the documented precondition offset ≥ 0) is not answered with 422 but
succeeds against the empty store. -/
theorem claim9_counterexample_offset_not_validated :
    (step initState (.listBorders (-1) 100)).1 = .borderList [] ∧
    (step initState (.listBorders (-1) 100)).1 ≠ .unprocessable := by
  constructor
  · rfl
  · decide

/-- C9 (amended): only the limit parameter is validated: any limit > 100 is
rejected with 422 before the store is touched, while any limit ≤ 100
(including limit = 100, and regardless of the offset value, even a negative
one) reaches the handler and succeeds with a border page. -/
theorem claim9_limit_validation (s : StoreState) (offset limit : Int) :
    (100 < limit → step s (.listBorders offset limit) = (.unprocessable, s)) ∧
    (limit ≤ 100 → (step s (.listBorders offset limit)).2 = s ∧
      ∃ rows, (step s (.listBorders offset limit)).1 = .borderList rows) := by
  constructor
  · intro hgt
    simp only [step, read_borders_endpoint]
    rw [if_neg (by omega)]
  · intro hle
    refine ⟨?_, ?_⟩
    · simp only [step, read_borders_endpoint, if_pos hle, read_borders]
    · exact ⟨(sqlPage s.borders offset limit).map (fun b => (b, tasksOf s b)), by
        simp only [step, read_borders_endpoint, if_pos hle, read_borders]⟩

theorem claim9_limit_validation_witness :
    step initState (.listBorders (-1) 101) = (.unprocessable, initState) ∧
    ((step initState (.listBorders (-1) 100)).2 = initState ∧
      ∃ rows, (step initState (.listBorders (-1) 100)).1 = .borderList rows) :=
  ⟨(claim9_limit_validation initState (-1) 101).1 (by decide),
   (claim9_limit_validation initState (-1) 100).2 (by decide)⟩

end TodoBackend
